import Mathlib

/-!
Verification development for the KOA_Middleware calibration cache engine.

The definitions below are a shallow embedding of the Python sources
`koa_middleware/store.py` (class `CalibrationStore`),
`koa_middleware/database/local_database.py` (class `LocalCalibrationDB`),
`koa_middleware/utils.py` (helpers), and — where the remote service itself is
an external collaborator — spec-modelled contracts for
`koa_middleware/database/remote_database.py` (class `RemoteCalibrationDB`).

Records are dict-shaped in the source; they are embedded as a structure with
`Option` fields (a `none` field models an absent or SQL-NULL column, which the
source's query layer treats identically: `col = :v` never matches NULL).
SQLite TEXT comparison (`memcmp` over UTF-8 bytes) is embedded as
codepoint-lexicographic comparison on `List Char`, which agrees with byte
order on these ASCII timestamp strings.
-/

set_option maxRecDepth 4000

namespace KOAMW

/-! ### String order (sqlite TEXT comparison) -/

/-- Lexicographic `≤` on character lists, by codepoint.  Models sqlite's
TEXT ordering (binary collation) used by `MAX(last_updated)`, `ORDER BY`
and the range filters in `LocalCalibrationDB.query`. -/
def charsLe : List Char → List Char → Bool
  | [], _ => true
  | _ :: _, [] => false
  | a :: as, b :: bs =>
    if a.toNat = b.toNat then charsLe as bs else decide (a.toNat < b.toNat)

/-- String `≤` as sqlite compares TEXT values. -/
def strLe (a b : String) : Bool :=
  charsLe a.toList b.toList

/-- Binary maximum under `strLe` (the accumulator step of SQL `MAX`). -/
def maxStr (a b : String) : String :=
  if strLe a b then b else a

/-- SQL `MAX` over a list of non-NULL TEXT values: `none` on the empty list. -/
def sqlMax : List String → Option String
  | [] => none
  | v :: vs =>
    match sqlMax vs with
    | none => some v
    | some m => some (maxStr v m)

/-! ### Decimal digits (Python `int(...)` and `f"{n:03d}"`) -/

/-- Numeric value of a digit-character list, `digitsVal "123" = 123`. -/
def digitsVal : List Char → Nat
  | [] => 0
  | c :: cs => (c.toNat - 48) * 10 ^ cs.length + digitsVal cs

/-- All characters are decimal digits. -/
def allDigits (cs : List Char) : Bool :=
  cs.all (·.isDigit)

/-- Python `int(s)` restricted to plain digit strings (the only shape this
system feeds it: zero-padded `cal_version` values).  `none` models the
`ValueError` raised on anything else. -/
def pyIntDigits (cs : List Char) : Option Nat :=
  if cs ≠ [] && allDigits cs then some (digitsVal cs) else none

/-- The decimal digit character for `d ≤ 9`. -/
def digitChar (d : Nat) : Char :=
  if d = 0 then '0' else if d = 1 then '1' else if d = 2 then '2'
  else if d = 3 then '3' else if d = 4 then '4' else if d = 5 then '5'
  else if d = 6 then '6' else if d = 7 then '7' else if d = 8 then '8' else '9'

/-- Digits of `n` (most significant first), prepended to `acc`; fuelled so the
definition is structural and kernel-reducible.  Any `fuel ≥ n` is exact. -/
def decimalReprAux : Nat → Nat → List Char → List Char
  | 0, _, acc => acc
  | fuel + 1, n, acc =>
    if n = 0 then acc else decimalReprAux fuel (n / 10) (digitChar (n % 10) :: acc)

/-- Decimal rendering of a natural number (Python `str(n)` / `%d`). -/
def decimalRepr (n : Nat) : String :=
  if n = 0 then "0" else String.mk (decimalReprAux n n [])

/-- Python `f"{n:0wd}"`: decimal rendering left-padded with zeros to width `w`. -/
def padZeros (w n : Nat) : String :=
  let s := decimalRepr n
  String.mk (List.replicate (w - s.length) '0') ++ s

/-! ### Exception-carrying list traversal (a Python loop that may raise) -/

/-- Apply `f` to every element, propagating the first exception. -/
def mapExcept (f : α → Except String β) : List α → Except String (List β)
  | [] => .ok []
  | a :: as => do
    let b ← f a
    let bs ← mapExcept f as
    return b :: bs

/-! ### Case mapping (Python `str.lower` / `str.upper` on ASCII) -/

/-- Python `s.lower()` (ASCII range, as used on mode/source/origin tags). -/
def pyLower (s : String) : String :=
  String.mk (s.toList.map Char.toLower)

/-- Python `s.upper()` (ASCII range, as used on origin tags). -/
def pyUpper (s : String) : String :=
  String.mk (s.toList.map Char.toUpper)

/-! ### Datetime model: `utils.postgres_http_date_to_iso` -/

/-- A Python `datetime` as far as this system observes it.  `utcOffset` is
`none` for a naive datetime; the only aware offsets this system ever parses
are zero (`Z`, `+00:00`, HTTP-date `GMT`), so the offset is recorded in
minutes and is `0` whenever present. -/
structure PyDateTime where
  year : Nat
  month : Nat
  day : Nat
  hour : Nat
  minute : Nat
  second : Nat
  microsecond : Nat
  utcOffset : Option Int
deriving DecidableEq

/-- Leap-year test (Gregorian), as `datetime` validates day-of-month. -/
def isLeapYear (y : Nat) : Bool :=
  (y % 4 = 0 && y % 100 ≠ 0) || y % 400 = 0

/-- Days in a month, as `datetime` validates day-of-month. -/
def daysInMonth (y m : Nat) : Nat :=
  if m = 2 then (if isLeapYear y then 29 else 28)
  else if m = 4 || m = 6 || m = 9 || m = 11 then 30
  else 31

/-- Exactly `n` leading digit characters, returned with the rest. -/
def takeDigits (n : Nat) (cs : List Char) : Option (Nat × List Char) :=
  let pre := cs.take n
  if pre.length = n && allDigits pre then some (digitsVal pre, cs.drop n) else none

/-- Parse `YYYY-MM-DD` with `datetime`'s range validation. -/
def parseDate (cs : List Char) : Option (Nat × Nat × Nat × List Char) := do
  let (y, cs) ← takeDigits 4 cs
  match cs with
  | '-' :: cs =>
    let (mo, cs) ← takeDigits 2 cs
    match cs with
    | '-' :: cs =>
      let (d, cs) ← takeDigits 2 cs
      if 1 ≤ mo && mo ≤ 12 && 1 ≤ d && d ≤ daysInMonth y mo then
        some (y, mo, d, cs)
      else none
    | _ => none
  | _ => none

/-- Parse `HH:MM[:SS[.f{1..6}]]` with range validation; yields
`(hour, minute, second, microsecond, rest)`. -/
def parseTime (cs : List Char) : Option (Nat × Nat × Nat × Nat × List Char) := do
  let (h, cs) ← takeDigits 2 cs
  match cs with
  | ':' :: cs =>
    let (mi, cs) ← takeDigits 2 cs
    let (sec, cs) ←
      match cs with
      | ':' :: cs2 =>
        match takeDigits 2 cs2 with
        | some (sec, cs3) => some (sec, cs3)
        | none => none
      | _ => some (0, cs)
    let (us, cs) ←
      match cs with
      | '.' :: cs2 =>
        let frac := cs2.takeWhile (·.isDigit)
        if 1 ≤ frac.length && frac.length ≤ 6 then
          some (digitsVal frac * 10 ^ (6 - frac.length), cs2.drop frac.length)
        else none
      | _ => some (0, cs)
    if h ≤ 23 && mi ≤ 59 && sec ≤ 59 then some (h, mi, sec, us, cs) else none
  | _ => none

/-- Parse the trailing UTC offset.  This models `datetime.fromisoformat` on
the offsets this system actually produces and consumes: none, or a zero
offset (`+00:00` / `-00:00`, the image of the `Z`-replacement). -/
def parseZeroOffset : List Char → Option (Option Int)
  | [] => some none
  | ['+', '0', '0', ':', '0', '0'] => some (some 0)
  | ['-', '0', '0', ':', '0', '0'] => some (some 0)
  | _ => none

/-- `datetime.fromisoformat`, on the ISO-8601 subset this system exchanges:
`YYYY-MM-DD`, optionally `T` (or space) plus `HH:MM[:SS[.f{1..6}]]`,
optionally a zero UTC offset. -/
def pyFromIsoformat (s : String) : Option PyDateTime :=
  match parseDate s.toList with
  | none => none
  | some (y, mo, d, rest) =>
    match rest with
    | [] => some ⟨y, mo, d, 0, 0, 0, 0, none⟩
    | c :: cs =>
      if c = 'T' || c = ' ' then
        match parseTime cs with
        | none => none
        | some (h, mi, sec, us, rest2) =>
          match parseZeroOffset rest2 with
          | none => none
          | some off => some ⟨y, mo, d, h, mi, sec, us, off⟩
      else none

/-- The three-letter weekday tokens accepted by `strptime`'s `%a`. -/
def weekdayNames : List (List Char) :=
  [['M','o','n'], ['T','u','e'], ['W','e','d'], ['T','h','u'],
   ['F','r','i'], ['S','a','t'], ['S','u','n']]

/-- Month number for `strptime`'s `%b` token, if valid. -/
def monthOfName (cs : List Char) : Option Nat :=
  if cs = ['J','a','n'] then some 1 else if cs = ['F','e','b'] then some 2
  else if cs = ['M','a','r'] then some 3 else if cs = ['A','p','r'] then some 4
  else if cs = ['M','a','y'] then some 5 else if cs = ['J','u','n'] then some 6
  else if cs = ['J','u','l'] then some 7 else if cs = ['A','u','g'] then some 8
  else if cs = ['S','e','p'] then some 9 else if cs = ['O','c','t'] then some 10
  else if cs = ['N','o','v'] then some 11 else if cs = ['D','e','c'] then some 12
  else none

/-- `datetime.strptime(s, "%a, %d %b %Y %H:%M:%S GMT")` followed by
`.replace(tzinfo=timezone.utc)`, as in `postgres_http_date_to_iso`. -/
def parseHttpDate (s : String) : Option PyDateTime := do
  let cs := s.toList
  let wd := cs.take 3
  if !(weekdayNames.contains wd) then none else
  match cs.drop 3 with
  | ',' :: ' ' :: cs => do
    let (d, cs) ← takeDigits 2 cs
    match cs with
    | ' ' :: cs => do
      let mo ← monthOfName (cs.take 3)
      match cs.drop 3 with
      | ' ' :: cs => do
        let (y, cs) ← takeDigits 4 cs
        match cs with
        | ' ' :: cs => do
          let (h, cs) ← takeDigits 2 cs
          match cs with
          | ':' :: cs => do
            let (mi, cs) ← takeDigits 2 cs
            match cs with
            | ':' :: cs => do
              let (sec, cs) ← takeDigits 2 cs
              if cs = [' ', 'G', 'M', 'T'] &&
                 1 ≤ d && d ≤ daysInMonth y mo && h ≤ 23 && mi ≤ 59 && sec ≤ 59 then
                some ⟨y, mo, d, h, mi, sec, 0, some 0⟩
              else none
            | _ => none
          | _ => none
        | _ => none
      | _ => none
    | _ => none
  | _ => none

/-- `dt.strftime("%Y-%m-%dT%H:%M:%S.") + f"{dt.microsecond // 1000:03d}"`:
the ISO-millisecond rendering `postgres_http_date_to_iso` returns. -/
def formatIsoMs (dt : PyDateTime) : String :=
  padZeros 4 dt.year ++ "-" ++ padZeros 2 dt.month ++ "-" ++ padZeros 2 dt.day ++ "T" ++
  padZeros 2 dt.hour ++ ":" ++ padZeros 2 dt.minute ++ ":" ++ padZeros 2 dt.second ++ "." ++
  padZeros 3 (dt.microsecond / 1000)

/-- `s.replace("Z", "+00:00")` (the pattern is the single character `Z`). -/
def replaceZ : List Char → List Char
  | [] => []
  | c :: cs =>
    if c = 'Z' then '+' :: '0' :: '0' :: ':' :: '0' :: '0' :: replaceZ cs
    else c :: replaceZ cs

/-- `utils.postgres_http_date_to_iso`: try ISO (after the `Z` replacement),
then the Postgres HTTP-date format; normalize to millisecond-precision ISO.
Both accepted offsets are zero, so the `astimezone(timezone.utc)` step leaves
the clock fields unchanged.  `Except.error` models the raised `ValueError`. -/
def postgres_http_date_to_iso (s : String) : Except String String :=
  match pyFromIsoformat (String.mk (replaceZ s.toList)) with
  | some dt => .ok (formatIsoMs dt)
  | none =>
    match parseHttpDate s with
    | some dt => .ok (formatIsoMs dt)
    | none => .error ("Invalid datetime string: " ++ s)

/-! ### `utils.is_valid_uuid` -/

/-- Hexadecimal digit (the regex's `[a-f0-9]` under `re.I`). -/
def isHexChar (c : Char) : Bool :=
  c.isDigit || (decide ('a' ≤ c) && decide (c ≤ 'f')) ||
    (decide ('A' ≤ c) && decide (c ≤ 'F'))

/-- `utils.is_valid_uuid`: the anchored UUID-v4 regex, case-insensitive. -/
def is_valid_uuid (s : String) : Bool :=
  let cs := s.toList
  cs.length = 36 &&
  (List.range 36).all (fun i =>
    let c := cs.getD i ' '
    if i = 8 || i = 13 || i = 18 || i = 23 then c = '-'
    else if i = 14 then c = '4'
    else if i = 19 then c = '8' || c = '9' || c = 'a' || c = 'b' || c = 'A' || c = 'B'
    else isHexChar c)

/-! ### The data model: one calibration metadata record

A row of the `LocalCalibrationDB` table (dict-shaped in the source).  `id` is
the primary key and always present on a stored row; every other column is
`Option`-valued (`none` models an absent key or SQL NULL — the query layer of
the source treats the two identically, since `col = :v` never matches NULL).
-/

structure CalRecord where
  id : String
  filename : Option String := none
  cal_type : Option String := none
  datetime_obs : Option String := none
  cal_version : Option String := none
  origin : Option String := none
  last_updated : Option String := none
  last_processed : Option String := none
  master_cal : Option Bool := none
  file_md5 : Option String := none
deriving DecidableEq

/-! ### `LocalCalibrationDB` (database/local_database.py)

The table is embedded as a `List CalRecord` (row order = insertion order,
sqlite's scan order for these queries).  Each method of the class becomes a
function on that list.
-/

/-- The stored primary keys. -/
def dbIds (db : List CalRecord) : List String :=
  db.map (·.id)

/-- `LocalCalibrationDB.query_id`: point lookup by primary key, absence is
`none`, never an exception (the source catches `NotFoundError`). -/
def query_id (db : List CalRecord) (cal_id : String) : Option CalRecord :=
  db.find? (fun r => r.id == cal_id)

/-- `LocalCalibrationDB.query_filename`: first row with the given filename. -/
def query_filename (db : List CalRecord) (filename : String) : Option CalRecord :=
  db.find? (fun r => r.filename == some filename)

/-- The row-level aggregate behind `LocalCalibrationDB.get_last_updated`,
valid once the table schema carries the `last_updated` column (the state
after any successful `add`, whose stamped items always include that field,
so `alter=True` creates the column): `SELECT MAX(last_updated)` yields one
row whose single column is NULL over zero rows (or all-NULL values), which
the method maps to `None`.  `table_get_last_updated` below is the
schema-aware model that also covers the freshly created store, where the
column does not exist yet and the SELECT raises instead. -/
def get_last_updated (db : List CalRecord) : Option String :=
  sqlMax (db.filterMap (·.last_updated))

/-- The state of the sqlite table behind `LocalCalibrationDB`, schema
included: the column set — created from `_MIN_SCHEMA` and grown additively
by `add`'s `alter=True` — plus the rows. -/
structure LocalTable where
  cols : List String
  rows : List CalRecord
deriving DecidableEq

/-- The table `LocalCalibrationDB.__init__` (and `_reset`) creates when none
exists: `_MIN_SCHEMA = {id: str, filename: str}`, no rows. -/
def freshTable : LocalTable :=
  { cols := ["id", "filename"], rows := [] }

/-- `LocalCalibrationDB.get_last_updated` at the SQL level:
`SELECT MAX(last_updated) FROM {table}` raises
`sqlite3.OperationalError: no such column` when the `last_updated` column is
absent from the schema — the state of a freshly created store, before any
`add` has widened it — and nothing in the method catches that; otherwise it
yields the maximum non-NULL value, NULL (mapped to `None`) over zero rows. -/
def table_get_last_updated (t : LocalTable) : Except String (Option String) :=
  if t.cols.contains "last_updated" then
    Except.ok (sqlMax (t.rows.filterMap (fun r => r.last_updated)))
  else
    Except.error "sqlite3.OperationalError: no such column: last_updated"

/-- `LocalCalibrationDB.__len__` / `Table.count`. -/
def dbLen (db : List CalRecord) : Nat :=
  db.length

/-- The keyword filters of `LocalCalibrationDB.query` (each `none` means the
argument was not passed). -/
structure QueryFilters where
  filename : Option String := none
  cal_type : Option String := none
  cal_id : Option String := none
  cal_version_min : Option String := none
  cal_version_max : Option String := none
  date_time_start : Option String := none
  date_time_end : Option String := none
  last_updated_start : Option String := none
  last_updated_end : Option String := none
  origin : Option String := none
deriving DecidableEq

/-- One row against the composed `AND` of the SQL filters built by
`LocalCalibrationDB.query`.  A NULL column never satisfies a comparison. -/
def matchesFilters (f : QueryFilters) (r : CalRecord) : Bool :=
  (match f.date_time_start with
   | none => true
   | some v => match r.datetime_obs with | none => false | some w => strLe v w) &&
  (match f.date_time_end with
   | none => true
   | some v => match r.datetime_obs with | none => false | some w => strLe w v) &&
  (match f.cal_type with
   | none => true
   | some v => r.cal_type == some v) &&
  (match f.cal_version_min with
   | none => true
   | some v => match r.cal_version with | none => false | some w => strLe v w) &&
  (match f.cal_version_max with
   | none => true
   | some v => match r.cal_version with | none => false | some w => strLe w v) &&
  (match f.last_updated_start with
   | none => true
   | some v => match r.last_updated with | none => false | some w => strLe v w) &&
  (match f.last_updated_end with
   | none => true
   | some v => match r.last_updated with | none => false | some w => strLe w v) &&
  (match f.origin with
   | none => true
   | some v => r.origin == some v)

/-- Insert into a list already sorted by `last_updated` (NULLs first,
ascending), after all equal keys: the stable `ORDER BY last_updated`. -/
def insertByLastUpdated (r : CalRecord) : List CalRecord → List CalRecord
  | [] => [r]
  | x :: xs =>
    let le := match x.last_updated, r.last_updated with
      | none, _ => true
      | some _, none => false
      | some a, some b => strLe a b
    if le then x :: insertByLastUpdated r xs else r :: x :: xs

/-- `ORDER BY last_updated` (the default `order_by` of the query method). -/
def sortByLastUpdated (db : List CalRecord) : List CalRecord :=
  db.foldl (fun acc r => insertByLastUpdated r acc) []

/-- Result of `LocalCalibrationDB.query`: a row list (`fetch="all"`) or a
single optional row (`fetch="first"`, or the `cal_id` / `filename`
delegations). -/
inductive QueryResult
  | rows (rs : List CalRecord)
  | single (r : Option CalRecord)
deriving DecidableEq

/-- `LocalCalibrationDB.query` with the default `order_by='last_updated'`:
`cal_id` delegates to `query_id`, then `filename` to `query_filename`; an
empty table short-circuits; otherwise filter, sort, and fetch. -/
def dbQuery (db : List CalRecord) (f : QueryFilters) (fetch : String) : QueryResult :=
  match f.cal_id with
  | some cid => .single (query_id db cid)
  | none =>
    match f.filename with
    | some fn => .single (query_filename db fn)
    | none =>
      if dbLen db = 0 then
        (if fetch = "first" then .single none else .rows [])
      else
        let out := sortByLastUpdated (db.filter (matchesFilters f))
        if fetch = "first" then .single out.head? else .rows out

/-- The `fetch="all"` rows of a query (`query()` always yields a list there). -/
def dbQueryAll (db : List CalRecord) (f : QueryFilters) : List CalRecord :=
  match dbQuery db f "all" with
  | .rows rs => rs
  | .single _ => []

/-- The datetime-column normalization loop at the top of
`LocalCalibrationDB.add`: `datetime_obs`, `last_updated` and `last_processed`
are passed through `postgres_http_date_to_iso` when present; an unparseable
value raises (and this happens before the transaction is entered). -/
def convOptDatetime : Option String → Except String (Option String)
  | none => .ok none
  | some s => do
    let s2 ← postgres_http_date_to_iso s
    return some s2

def convertDatetimeCols (r : CalRecord) : Except String CalRecord := do
  let dto ← convOptDatetime r.datetime_obs
  let lu ← convOptDatetime r.last_updated
  let lp ← convOptDatetime r.last_processed
  return { r with datetime_obs := dto, last_updated := lu, last_processed := lp }

/-- The batch-timestamp stamping in `LocalCalibrationDB.add`: a record whose
`last_updated` is falsy (absent or empty) receives the one shared `now`. -/
def stampLastUpdated (now : String) (r : CalRecord) : CalRecord :=
  match r.last_updated with
  | none => { r with last_updated := some now }
  | some v => if v = "" then { r with last_updated := some now } else r

/-- Pairwise-distinct primary keys inside one batch. -/
def distinctIds : List String → Bool
  | [] => true
  | x :: xs => !(xs.contains x) && distinctIds xs

/-- Whether `Table.insert_all(items, pk="id")` succeeds: a plain `INSERT`
per row, so any primary-key collision — with an existing row or inside the
batch — raises `IntegrityError` and the statement batch is rolled back. -/
def insertAllOk (db : List CalRecord) (items : List CalRecord) : Bool :=
  distinctIds (items.map (·.id)) && items.all (fun i => !((dbIds db).contains i.id))

/-- `LocalCalibrationDB.add`: normalize datetime columns (raising on a bad
value, before the transaction), stamp one shared `now` onto every record
lacking `last_updated`, then `insert_all` inside `transaction()`.  The
`transaction` context manager catches any exception, logs it, and does not
re-raise, so a failed insert leaves the table unchanged and the method
returns the (stamped) input items as if it had succeeded.  (`insert_all`
commits in chunks of 100 rows; the embedding covers batches within one
chunk, which every call in this system stays inside.) -/
def dbAdd (db : List CalRecord) (cals : List CalRecord) (now : String) :
    Except String (List CalRecord × List CalRecord) := do
  if cals.isEmpty then return (db, [])
  let converted ← mapExcept convertDatetimeCols cals
  let items := converted.map (stampLastUpdated now)
  let db2 := if insertAllOk db items then db ++ items else db
  return (db2, items)

/-- `LocalCalibrationDB.delete`: remove by primary key; a missing key is a
logged no-op (`NotFoundError` is caught). -/
def dbDelete (db : List CalRecord) (cal_id : String) : List CalRecord :=
  db.filter (fun r => !(r.id == cal_id))

/-- `LocalCalibrationDB._reset`: without `confirm=True` it only warns and
leaves the table untouched; with it the table is dropped and recreated. -/
def dbReset (db : List CalRecord) (confirm : Bool) : List CalRecord :=
  if confirm then [] else db

/-! ### `CalibrationStore` (store.py)

The store-level state a claim can observe: the default origin tag, the cache
data directory (`data_dir`, constructed with a trailing separator in
`_init_cache`, so `os.path.join(data_dir, fn)` is plain concatenation), and
the local table.  The filesystem is a list of present absolute paths; the
remote database, an external collaborator, is an optional record list.
-/

structure CalibrationStore where
  origin : Option String := none
  data_dir : String := ""
  local_db : List CalRecord := []
deriving DecidableEq

/-- Python falsy-chaining `a or b` on optional strings (`""` is falsy). -/
def pyOrStr (a b : Option String) : Option String :=
  match a with
  | some s => if s = "" then b else some s
  | none => b

/-- `CalibrationStore.get_version_family_values`: asserts a truthy
`cal_type`, then keeps the version-family columns (default `cal_type`,
`datetime_obs`) that are present on the record. -/
def getVersionFamilyValues (cal : CalRecord) :
    Except String (Option String × Option String) :=
  match cal.cal_type with
  | none => .error "cal_type must be present in calibration metadata"
  | some ct =>
    if ct = "" then .error "cal_type must be present in calibration metadata"
    else .ok (some ct, cal.datetime_obs)

/-- A row against the version-family equality filters (`key = :key` for each
family value; an absent family column contributes no clause). -/
def familyRowMatch (fam : Option String × Option String) (r : CalRecord) : Bool :=
  (match fam.1 with | none => true | some v => r.cal_type == some v) &&
  (match fam.2 with | none => true | some v => r.datetime_obs == some v)

/-- `CalibrationStore._get_next_calibration_version`: guard on the empty
table (`"001"`), resolve the origin by falsy-chaining (argument, record,
store default; asserting one is present), query the family + origin rows,
take `max` of the `int(...)` of the set `cal_version` values (default `0`),
and format `max+1` as `f"{...:03d}"`. -/
def get_next_calibration_version (defaultOrigin : Option String)
    (db : List CalRecord) (cal : CalRecord) (originArg : Option String) :
    Except String String := do
  if dbLen db = 0 then return "001"
  let origin3 := pyOrStr (pyOrStr originArg cal.origin) defaultOrigin
  match origin3 with
  | none =>
    .error "Origin must be specified either in the input calibration metadata or as an argument to this function."
  | some og => do
    let fam ← getVersionFamilyValues cal
    let rows := db.filter (fun r => familyRowMatch fam r && r.origin == some og)
    let versionStrs := rows.filterMap (·.cal_version)
    let versions ← mapExcept (fun s =>
      match pyIntDigits s.toList with
      | some n => Except.ok n
      | none => Except.error ("invalid literal for int with base 10: " ++ s)) versionStrs
    let next := versions.foldl max 0 + 1
    return padZeros 3 next

/-- `CalibrationStore.generate_calibration_version`: resolve and uppercase
the origin (explicit argument, else record origin falsy-or store default,
asserting one is present), write it onto the record, compute the next family
version, and raise if `int(version)` exceeds the `999` ceiling.  The source
mutates the record dict in place; the embedding returns the updated record
alongside the version string. -/
def generate_calibration_version (store : CalibrationStore) (cal : CalRecord)
    (originArg : Option String) : Except String (String × CalRecord) := do
  let origin ←
    match originArg with
    | some o => Except.ok (pyUpper o)
    | none =>
      match pyOrStr cal.origin store.origin with
      | none =>
        Except.error "Origin must be specified either in the input calibration metadata or as an argument to this function."
      | some og => Except.ok (pyUpper og)
  let cal2 := { cal with origin := some origin }
  let v ← get_next_calibration_version store.origin store.local_db cal2 none
  let n ←
    match pyIntDigits v.toList with
    | some n => Except.ok n
    | none => Except.error ("invalid literal for int with base 10: " ++ v)
  if n > 999 then .error ("Invalid calibration version: " ++ v)
  else return (v, cal2)

/-- An argument to the cache-lookup / retrieval methods: a record dict (also
standing for a `SupportsCalibrationIO` object through its `to_record()`
output) or a bare string (id or filepath). -/
inductive CalArg
  | record (r : CalRecord)
  | strArg (s : String)
deriving DecidableEq

/-- What a cache lookup returns: nothing, one record (`mode='id'`), or a
non-empty family row list (`mode='version-family'`). -/
inductive CacheVal
  | nothing
  | one (r : CalRecord)
  | many (rs : List CalRecord)
deriving DecidableEq

/-- `CalibrationStore._calibration_record_in_cache_id`: empty-table guard,
classify the input (a string must be a valid UUID, otherwise `ValueError`),
then `local_db.query(cal_id=...)`, which delegates to `query_id`. -/
def record_in_cache_id (db : List CalRecord) (cal : CalArg) :
    Except String (Option CalRecord) := do
  if dbLen db = 0 then return none
  let cal_id ←
    match cal with
    | .strArg s =>
      if is_valid_uuid s then Except.ok s
      else Except.error "Invalid input type for calibration. Must be a DataModel, dict, or filepath string."
    | .record r => Except.ok r.id
  return query_id db cal_id

/-- `CalibrationStore._calibration_record_in_cache_version_family` (with the
default `include_version=False`, the only way it is called): empty-table
guard, family-values filter, returning every matching row or `None`.  A bare
string input raises `ValueError`. -/
def record_in_cache_version_family (db : List CalRecord) (cal : CalArg) :
    Except String (Option (List CalRecord)) := do
  if dbLen db = 0 then return none
  match cal with
  | .strArg _ =>
    .error "Invalid input type for calibration. Must be a DataModel, dict, or filepath string."
  | .record r => do
    let fam ← getVersionFamilyValues r
    let rows := db.filter (familyRowMatch fam)
    if rows.isEmpty then return none else return (some rows)

/-- `CalibrationStore.calibration_record_in_cache`: the empty-table guard
runs first, before `mode.lower()` and mode validation; then the mode
dispatch.  `mode='md5'` names a helper that does not exist on the class, so
it raises `AttributeError`; any other unknown mode raises `ValueError`. -/
def calibration_record_in_cache (store : CalibrationStore) (cal : CalArg) (mode : String) :
    Except String CacheVal := do
  if dbLen store.local_db = 0 then return .nothing
  let mode := pyLower mode
  if mode = "id" then
    match ← record_in_cache_id store.local_db cal with
    | none => return .nothing
    | some r => return .one r
  else if mode = "version-family" then
    match ← record_in_cache_version_family store.local_db cal with
    | none => return .nothing
    | some rs => return .many rs
  else if mode = "md5" then
    .error "AttributeError: CalibrationStore has no attribute for the md5 helper"
  else
    .error ("Invalid mode: " ++ mode ++ ". Must be one of id, family+version, or md5.")

/-! ### Registration (`CalibrationStore.register_calibration`)

The `SupportsCalibrationIO` argument is embedded through its `to_record()`
output; its `save(output_dir)` capability writes `<output_dir><filename>` and
returns that path (the behaviour of every data model shipped with the
repository).  `now` is the batch timestamp `datetime.now()` produces inside
`LocalCalibrationDB.add`, and `md5` the checksum `generate_md5_file` computes
from the freshly saved file.
-/

structure RegResult where
  ret : Option (String × CalRecord)
  db : List CalRecord
  files : List String
deriving DecidableEq

/-- `CalibrationStore.register_calibration`: skip (returning `(None, None)`)
when the id is already cached, or — unless `new_version` — when the version
family already has a member; otherwise optionally generate a version (the
returned version string is discarded; only the in-place `origin` update on
the record survives), save the file, attach the checksum, and add the record
to the local table. -/
def register_calibration (store : CalibrationStore) (files : List String)
    (cal : CalRecord) (originArg : Option String) (new_version : Bool)
    (now md5 : String) : Except String RegResult := do
  match ← calibration_record_in_cache store (.record cal) "id" with
  | .nothing => pure ()
  | _ => return ⟨none, store.local_db, files⟩
  if !new_version then
    match ← calibration_record_in_cache store (.record cal) "version-family" with
    | .nothing => pure ()
    | _ => return ⟨none, store.local_db, files⟩
  let cal_record ←
    if new_version then do
      let (_v, cal2) ← generate_calibration_version store cal originArg
      pure cal2
    else pure cal
  let local_filepath := store.data_dir ++ cal_record.filename.getD ""
  let files2 := local_filepath :: files
  let cal_record := { cal_record with file_md5 := some md5 }
  let (db2, added) ← dbAdd store.local_db [cal_record] now
  return ⟨some (local_filepath, (added.head?).getD cal_record), db2, files2⟩

/-- Register a list of calibrations one after the other, threading the local
table and the cache directory (the concrete scenario of the spec's §8). -/
def registerSequence (store : CalibrationStore) (files : List String)
    (cals : List CalRecord) (originArg : Option String) (new_version : Bool)
    (now md5 : String) :
    Except String (CalibrationStore × List String × List (Option (String × CalRecord))) := do
  match cals with
  | [] => return (store, files, [])
  | c :: rest => do
    let r ← register_calibration store files c originArg new_version now md5
    let store2 := { store with local_db := r.db }
    let (store3, files3, rets) ←
      registerSequence store2 r.files rest originArg new_version now md5
    return (store3, files3, r.ret :: rets)

/-! ### The remote archive client (`RemoteCalibrationDB`)

Modelled from the spec: the remote service is an external collaborator (HTTP
transport excluded from the core); §4.2 gives its contract — `query(filters)`
with the same filter vocabulary as the Record Store, server-side evaluated;
`get_last_updated() -> timestamp`; `download(id, output_dir)` landing exactly
one file at a deterministic path.  The remote table is a `List CalRecord`.
-/

/-- Modelled from the spec: remote `query(cal_id=...)` — the record with the
given id, or absence. -/
def remote_query_id (remote : List CalRecord) (cal_id : String) : Option CalRecord :=
  remote.find? (fun r => r.id == cal_id)

/-- Modelled from the spec: remote `get_last_updated()` — the maximum
`last_updated` across the remote records (the synchronization cursor). -/
def remote_get_last_updated (remote : List CalRecord) : Option String :=
  get_last_updated remote

/-- Modelled from the spec: remote `query(last_updated_start=...)` — the
Record Store's filter vocabulary, so a `None` bound is no filter and the
bound is inclusive (`last_updated >= start`). -/
def remote_query_last_updated_start (remote : List CalRecord)
    (start : Option String) : List CalRecord :=
  match start with
  | none => remote
  | some v =>
    remote.filter (fun r =>
      match r.last_updated with | none => false | some w => strLe v w)

/-! ### Retrieval (`CalibrationStore.get_calibration`) -/

/-- The observable outcome of one `get_calibration` call: the returned value
(`none` embeds Python's implicit `return None`), the local table, the cache
files, and how many remote query / download operations ran. -/
structure GetCalResult where
  ret : Option (String × CalRecord)
  db : List CalRecord
  files : List String
  remote_queries : Nat
  remote_downloads : Nat
deriving DecidableEq

/-- `CalibrationStore.get_calibration`: look the record up locally by id; if
absent, require a remote client, validate the id, query the remote by id —
on a hit the fetched record is added to the local table and control falls
off the end of the method (returning `None`), on a miss a `ValueError` is
raised; if present locally, return the cached file's path if it exists,
otherwise download it.  `now` is the stamp `LocalCalibrationDB.add` would
use on insertion. -/
def get_calibration (store : CalibrationStore) (files : List String)
    (remote : Option (List CalRecord)) (cal : CalArg) (now : String) :
    Except String GetCalResult := do
  let found ← calibration_record_in_cache store cal "id"
  match found with
  | .nothing =>
    match remote with
    | none =>
      .error "Calibration record not found in cache, and no remote DB connection available to retrieve it."
    | some rdb => do
      let cal_id := match cal with | .record r => r.id | .strArg s => s
      if !is_valid_uuid cal_id then
        .error ("Invalid calibration ID: " ++ cal_id)
      else
        match remote_query_id rdb cal_id with
        | some r => do
          let (db2, _items) ← dbAdd store.local_db [r] now
          return ⟨none, db2, files, 1, 0⟩
        | none =>
          .error ("Calibration record not found in Remote DB for " ++ cal_id)
  | .one r =>
    match r.filename with
    | none => .error "TypeError: expected str, not NoneType"
    | some fn =>
      let path := store.data_dir ++ fn
      if files.contains path then
        return ⟨some (path, r), store.local_db, files, 0, 0⟩
      else
        match remote with
        | none =>
          .error "AttributeError: NoneType object has no attribute download_calibration"
        | some _ =>
          return ⟨some (path, r), store.local_db, path :: files, 0, 1⟩
  | .many _ =>
    .error "unreachable: mode id yields at most one record"

/-! ### Synchronization queries (`CalibrationStore.get_missing_records`) -/

/-- `CalibrationStore.get_last_updated(source=...)`: default the source to
the remote when one is connected, dispatch on the lowered name; asking for
the remote without a connection is an `AttributeError` on `None`. -/
def store_get_last_updated (store : CalibrationStore) (remote : Option (List CalRecord))
    (source : Option String) : Except String (Option String) := do
  let src := match source with
    | none => if remote.isSome then "remote" else "local"
    | some s => s
  let src := pyLower src
  if src = "local" then return get_last_updated store.local_db
  else if src = "remote" then
    match remote with
    | none => .error "AttributeError: NoneType object has no attribute get_last_updated"
    | some rdb => return remote_get_last_updated rdb
  else .error ("Invalid source " ++ src ++ " for get_last_updated().")

/-- `CalibrationStore.get_missing_records`: choose source/target; in
`last_updated` mode take the target's cursor and query the source with
`last_updated_start=cursor` (the source's comment says strictly greater, the
executed filter is `>=`); in `id` mode diff the full id sets. -/
def get_missing_records (store : CalibrationStore) (remote : Option (List CalRecord))
    (source mode : String) : Except String (List CalRecord) := do
  let source := pyLower source
  let mode := pyLower mode
  if source ≠ "remote" && source ≠ "local" then
    .error ("Invalid source " ++ source ++ " for get_missing_records().")
  else if mode = "last_updated" then
    if source = "remote" then do
      let cursor ← store_get_last_updated store remote (some "local")
      match remote with
      | none => .error "AttributeError: NoneType object has no attribute query"
      | some rdb => return remote_query_last_updated_start rdb cursor
    else do
      let cursor ← store_get_last_updated store remote (some "remote")
      return dbQueryAll store.local_db { last_updated_start := cursor }
  else if mode = "id" then do
    let cals_source ←
      if source = "remote" then
        match remote with
        | none => Except.error "AttributeError: NoneType object has no attribute query"
        | some rdb => Except.ok rdb
      else Except.ok (dbQueryAll store.local_db {})
    let cals_target ←
      if source = "remote" then Except.ok (dbQueryAll store.local_db {})
      else
        match remote with
        | none => Except.error "AttributeError: NoneType object has no attribute query"
        | some rdb => Except.ok rdb
    let targetIds := cals_target.map (·.id)
    return cals_source.filter (fun c => !(targetIds.contains c.id))
  else
    .error ("Invalid mode " ++ mode ++ " for get_missing_records().")

/-! ### Lemmas: the TEXT order and SQL `MAX` -/

theorem charsLe_refl (cs : List Char) : charsLe cs cs = true := by
  induction cs with
  | nil => rfl
  | cons a as ih => simp [charsLe, ih]

theorem charsLe_total (a b : List Char) : charsLe a b = true ∨ charsLe b a = true := by
  induction a generalizing b with
  | nil => left; rfl
  | cons x xs ih =>
    cases b with
    | nil => right; rfl
    | cons y ys =>
      by_cases hxy : x.toNat = y.toNat
      · have ih2 := ih ys
        simp [charsLe, hxy]
        rcases ih2 with h | h
        · left; exact h
        · right; exact h
      · have : x.toNat < y.toNat ∨ y.toNat < x.toNat := by omega
        rcases this with h | h
        · left; simp [charsLe, hxy, h]
        · right
          have hyx : ¬ y.toNat = x.toNat := by omega
          simp [charsLe, hyx, h]

theorem charsLe_trans (a b c : List Char) (h1 : charsLe a b = true)
    (h2 : charsLe b c = true) : charsLe a c = true := by
  induction a generalizing b c with
  | nil => rfl
  | cons x xs ih =>
    cases b with
    | nil => simp [charsLe] at h1
    | cons y ys =>
      cases c with
      | nil => simp [charsLe] at h2
      | cons z zs =>
        by_cases hxy : x.toNat = y.toNat
        · by_cases hyz : y.toNat = z.toNat
          · have hxz : x.toNat = z.toNat := by omega
            simp [charsLe, hxy] at h1
            simp [charsLe, hyz] at h2
            simp [charsLe, hxz]
            exact ih ys zs h1 h2
          · simp [charsLe, hyz] at h2
            have hxz : ¬ x.toNat = z.toNat := by omega
            have : x.toNat < z.toNat := by omega
            simp [charsLe, hxz, this]
        · simp [charsLe, hxy] at h1
          by_cases hyz : y.toNat = z.toNat
          · have hxz : ¬ x.toNat = z.toNat := by omega
            have : x.toNat < z.toNat := by omega
            simp [charsLe, hxz, this]
          · simp [charsLe, hyz] at h2
            have hxz : ¬ x.toNat = z.toNat := by omega
            have : x.toNat < z.toNat := by omega
            simp [charsLe, hxz, this]

theorem strLe_refl (s : String) : strLe s s = true :=
  charsLe_refl s.toList

theorem strLe_total (a b : String) : strLe a b = true ∨ strLe b a = true :=
  charsLe_total a.toList b.toList

theorem strLe_trans (a b c : String) (h1 : strLe a b = true) (h2 : strLe b c = true) :
    strLe a c = true :=
  charsLe_trans a.toList b.toList c.toList h1 h2

theorem maxStr_left (a b : String) : strLe a (maxStr a b) = true := by
  unfold maxStr
  by_cases h : strLe a b = true
  · simp [h]
  · simp [h, strLe_refl]

theorem maxStr_right (a b : String) : strLe b (maxStr a b) = true := by
  unfold maxStr
  by_cases h : strLe a b = true
  · simp [h, strLe_refl]
  · rcases strLe_total a b with h2 | h2
    · exact absurd h2 h
    · simp [h, h2]

theorem maxStr_cases (a b : String) : maxStr a b = a ∨ maxStr a b = b := by
  unfold maxStr
  by_cases h : strLe a b = true
  · right; simp [h]
  · left; simp [h]

theorem sqlMax_eq_none_iff (l : List String) : sqlMax l = none ↔ l = [] := by
  cases l with
  | nil => simp [sqlMax]
  | cons v vs =>
    simp only [sqlMax]
    cases sqlMax vs <;> simp

theorem sqlMax_mem (l : List String) (v : String) (h : sqlMax l = some v) : v ∈ l := by
  induction l generalizing v with
  | nil => simp [sqlMax] at h
  | cons x xs ih =>
    simp only [sqlMax] at h
    cases hm : sqlMax xs with
    | none =>
      rw [hm] at h
      simp at h
      simp [h]
    | some m =>
      rw [hm] at h
      simp at h
      rcases maxStr_cases x m with hc | hc
      · rw [hc] at h
        simp [← h]
      · rw [hc] at h
        right
        rw [← h]
        exact ih m hm

theorem sqlMax_isUB (l : List String) (v : String) (h : sqlMax l = some v)
    (w : String) (hw : w ∈ l) : strLe w v = true := by
  induction l generalizing v with
  | nil => simp at hw
  | cons x xs ih =>
    simp only [sqlMax] at h
    cases hm : sqlMax xs with
    | none =>
      rw [hm] at h
      simp at h
      have : xs = [] := (sqlMax_eq_none_iff xs).mp hm
      subst this
      simp at hw
      subst hw
      rw [← h]
      exact strLe_refl w
    | some m =>
      rw [hm] at h
      simp at h
      rcases List.mem_cons.mp hw with hwx | hwxs
      · subst hwx
        rw [← h]
        exact maxStr_left w m
      · have hwm := ih m hm hwxs
        have hmv : strLe m (maxStr x m) = true := maxStr_right x m
        rw [← h]
        exact strLe_trans w m (maxStr x m) hwm hmv

/-- `get_last_updated` on a table whose schema carries the `last_updated`
column behaves as the method's docstring describes: `none` over zero rows,
and otherwise an attained upper bound of all `last_updated` values; no error
is possible on that schema. -/
theorem table_get_last_updated_widened_max (t : LocalTable)
    (h : t.cols.contains "last_updated" = true) :
    (t.rows = [] → table_get_last_updated t = Except.ok none) ∧
    (∀ v, table_get_last_updated t = Except.ok (some v) →
      (∃ r ∈ t.rows, r.last_updated = some v) ∧
      (∀ r ∈ t.rows, ∀ w, r.last_updated = some w → strLe w v = true)) ∧
    (∀ e, table_get_last_updated t ≠ Except.error e) := by
  have hopen : table_get_last_updated t =
      Except.ok (sqlMax (t.rows.filterMap (fun r => r.last_updated))) := by
    unfold table_get_last_updated
    rw [if_pos h]
  refine ⟨?_, ?_, ?_⟩
  · intro hrows
    rw [hopen, hrows]
    rfl
  · intro v hv
    rw [hopen] at hv
    injection hv with hv
    constructor
    · have hmem := sqlMax_mem _ v hv
      rcases List.mem_filterMap.mp hmem with ⟨r, hr, hfu⟩
      exact ⟨r, hr, hfu⟩
    · intro r hr w hw
      apply sqlMax_isUB _ v hv
      exact List.mem_filterMap.mpr ⟨r, hr, hw⟩
  · intro e
    rw [hopen]
    intro hcontra
    cases hcontra

/-- Claim C6: refuted as stated.  On a freshly created store the table built
from `_MIN_SCHEMA` has no `last_updated` column, so
`SELECT MAX(last_updated)` raises `sqlite3.OperationalError` — not the
claimed `None` — and nothing in `get_last_updated` catches it.  Once the
schema carries the column (as after any successful `add`, whose stamped
items always include the field), the call returns `None` over zero rows and
the attained maximum otherwise, as the claim, the spec and the method's own
docstring intend. -/
theorem c6_fresh_store_raises :
    table_get_last_updated freshTable =
      Except.error "sqlite3.OperationalError: no such column: last_updated" ∧
    table_get_last_updated
        { cols := ["id", "filename", "last_updated"], rows := [] } =
      Except.ok none ∧
    table_get_last_updated
        { cols := ["id", "filename", "last_updated"],
          rows := [{ id := "a", last_updated := some "2024-01-01T00:00:00.000" },
                   { id := "b", last_updated := some "2024-01-03T00:00:00.000" }] } =
      Except.ok (some "2024-01-03T00:00:00.000") := by
  exact ⟨rfl, rfl, rfl⟩

/-- Claim C10: with an empty local table, `calibration_record_in_cache`
returns `None` for every input and every mode string — the empty-store guard
runs before `mode.lower()` and mode validation — and the invalid-mode
`ValueError` is raised exactly when the store is non-empty and the lowered
mode is none of `id`, `version-family`, `md5`. -/
theorem c10_empty_guard_before_mode_validation (store : CalibrationStore) (cal : CalArg)
    (mode : String) :
    (store.local_db = [] →
      calibration_record_in_cache store cal mode = Except.ok CacheVal.nothing) ∧
    (store.local_db ≠ [] → pyLower mode ≠ "id" → pyLower mode ≠ "version-family" →
      pyLower mode ≠ "md5" →
      calibration_record_in_cache store cal mode =
        Except.error ("Invalid mode: " ++ pyLower mode ++
          ". Must be one of id, family+version, or md5.")) := by
  constructor
  · intro h
    simp [calibration_record_in_cache, dbLen, h]
    rfl
  · intro hne h1 h2 h3
    have hlen : ¬ dbLen store.local_db = 0 := by
      simpa [dbLen, List.length_eq_zero] using hne
    simp [calibration_record_in_cache, hlen, h1, h2, h3]

/-- Claim C10 witness: an empty store answers `nothing` even for the invalid
mode `"BOGUS"`, and the same call on a one-record store raises the
invalid-mode error. -/
theorem c10_witness :
    calibration_record_in_cache { local_db := [] } (CalArg.strArg "zz") "BOGUS" =
      Except.ok CacheVal.nothing ∧
    calibration_record_in_cache { local_db := [{ id := "a" }] }
        (CalArg.strArg "zz") "BOGUS" =
      Except.error "Invalid mode: bogus. Must be one of id, family+version, or md5." := by
  constructor
  · exact (c10_empty_guard_before_mode_validation { local_db := [] }
      (CalArg.strArg "zz") "BOGUS").1 rfl
  · exact (c10_empty_guard_before_mode_validation { local_db := [{ id := "a" }] }
      (CalArg.strArg "zz") "BOGUS").2 (by simp) (by decide) (by decide) (by decide)

/-! ### Lemmas: exception-carrying traversal and the add pipeline -/

theorem mapExcept_ok_length (f : α → Except String β) (l : List α) (l2 : List β)
    (h : mapExcept f l = Except.ok l2) : l2.length = l.length := by
  induction l generalizing l2 with
  | nil =>
    simp only [mapExcept] at h
    cases h
    rfl
  | cons a as ih =>
    simp only [mapExcept, bind, Except.bind] at h
    cases hf : f a with
    | error e => rw [hf] at h; cases h
    | ok b =>
      rw [hf] at h
      cases hm : mapExcept f as with
      | error e => rw [hm] at h; cases h
      | ok bs =>
        rw [hm] at h
        simp only [pure, Except.pure] at h
        cases h
        simp [ih bs hm]

theorem mapExcept_ok_get (f : α → Except String β) (l : List α) (l2 : List β)
    (h : mapExcept f l = Except.ok l2) (i : Nat) (hi : i < l.length)
    (hj : i < l2.length) : f (l.get ⟨i, hi⟩) = Except.ok (l2.get ⟨i, hj⟩) := by
  induction l generalizing l2 i with
  | nil => simp at hi
  | cons a as ih =>
    simp only [mapExcept, bind, Except.bind] at h
    cases hf : f a with
    | error e => rw [hf] at h; cases h
    | ok b =>
      rw [hf] at h
      cases hm : mapExcept f as with
      | error e => rw [hm] at h; cases h
      | ok bs =>
        rw [hm] at h
        simp only [pure, Except.pure] at h
        cases h
        cases i with
        | zero => simpa using hf
        | succ k =>
          have hk : k < as.length := by simpa using hi
          have hk2 : k < bs.length := by simpa using hj
          simpa using ih bs hm k hk hk2

theorem convOptDatetime_none : convOptDatetime none = Except.ok none := rfl

theorem convOptDatetime_some (v : String) (w : Option String)
    (h : convOptDatetime (some v) = Except.ok w) :
    ∃ w2, postgres_http_date_to_iso v = Except.ok w2 ∧ w = some w2 := by
  simp only [convOptDatetime, bind, Except.bind] at h
  cases hpi : postgres_http_date_to_iso v with
  | error e =>
    rw [hpi] at h
    cases h
  | ok w2 =>
    rw [hpi] at h
    simp only [pure, Except.pure] at h
    cases h
    exact ⟨w2, rfl, rfl⟩

theorem convert_last_updated (r c : CalRecord)
    (h : convertDatetimeCols r = Except.ok c) :
    convOptDatetime r.last_updated = Except.ok c.last_updated := by
  simp only [convertDatetimeCols, bind, Except.bind] at h
  cases h1 : convOptDatetime r.datetime_obs with
  | error e =>
    rw [h1] at h
    cases h
  | ok dto =>
    rw [h1] at h
    cases h2 : convOptDatetime r.last_updated with
    | error e =>
      rw [h2] at h
      cases h
    | ok lu =>
      rw [h2] at h
      cases h3 : convOptDatetime r.last_processed with
      | error e =>
        rw [h3] at h
        cases h
      | ok lp =>
        rw [h3] at h
        simp only [pure, Except.pure] at h
        injection h with h4
        rw [← h4]

theorem convert_last_updated_none (r c : CalRecord)
    (h : convertDatetimeCols r = Except.ok c) (hl : r.last_updated = none) :
    c.last_updated = none := by
  have h2 := convert_last_updated r c h
  rw [hl] at h2
  simp only [convOptDatetime] at h2
  injection h2 with h3
  exact h3.symm

theorem convert_last_updated_some (r c : CalRecord)
    (h : convertDatetimeCols r = Except.ok c) (v : String)
    (hl : r.last_updated = some v) :
    ∃ w, postgres_http_date_to_iso v = Except.ok w ∧ c.last_updated = some w := by
  have h2 := convert_last_updated r c h
  rw [hl] at h2
  rcases convOptDatetime_some v _ h2 with ⟨w2, hw2, hc⟩
  exact ⟨w2, hw2, hc⟩

set_option maxHeartbeats 1000000 in
theorem postgres_iso_ne_empty (v w : String)
    (h : postgres_http_date_to_iso v = Except.ok w) : w ≠ "" := by
  have hfmt : ∀ dt : PyDateTime, formatIsoMs dt ≠ "" := by
    intro dt heq
    have hlen := congrArg String.length heq
    simp only [formatIsoMs, String.length_append] at hlen
    have h1 : ("-" : String).length = 1 := rfl
    have h2 : ("" : String).length = 0 := rfl
    omega
  revert h
  unfold postgres_http_date_to_iso
  cases h1 : pyFromIsoformat (String.mk (replaceZ v.toList)) with
  | some dt =>
    intro h
    cases h
    exact hfmt dt
  | none =>
    cases h2 : parseHttpDate v with
    | some dt =>
      intro h
      cases h
      exact hfmt dt
    | none =>
      intro h
      cases h

/-- The `(db2, items)` characterization of a normally returning `add`. -/
theorem dbAdd_ok (db cals : List CalRecord) (now : String)
    (p : List CalRecord × List CalRecord) (h : dbAdd db cals now = Except.ok p) :
    (cals = [] ∧ p = (db, [])) ∨
    (cals ≠ [] ∧ ∃ conv, mapExcept convertDatetimeCols cals = Except.ok conv ∧
      p.2 = conv.map (stampLastUpdated now) ∧
      p.1 = (if insertAllOk db p.2 then db ++ p.2 else db)) := by
  by_cases hc : cals = []
  · subst hc
    left
    refine ⟨rfl, ?_⟩
    simp only [dbAdd, List.isEmpty_nil] at h
    cases h
    rfl
  · right
    refine ⟨hc, ?_⟩
    have hne : cals.isEmpty = false := by
      cases cals with
      | nil => exact absurd rfl hc
      | cons a as => rfl
    simp only [dbAdd, hne, Bool.false_eq_true, if_false, bind, Except.bind] at h
    cases hm : mapExcept convertDatetimeCols cals with
    | error e =>
      rw [hm] at h
      cases h
    | ok conv =>
      rw [hm] at h
      simp only [pure, Except.pure] at h
      cases h
      exact ⟨conv, rfl, rfl, rfl⟩

/-- Claim C2 counterexample: `add` on a batch whose id already exists in the
table: the `INSERT` fails (`insertAllOk` is `false`), yet the call returns
`Except.ok` — the failure is not surfaced to the caller. -/
theorem c2_counterexample_failure_swallowed :
    insertAllOk [{ id := "dup-id", filename := some "old.fits" }]
        [{ id := "dup-id", filename := some "new.fits",
           last_updated := some "2025-01-01T00:00:00.000" }] = false ∧
    dbAdd [{ id := "dup-id", filename := some "old.fits" }]
        [{ id := "dup-id", filename := some "new.fits" }]
        "2025-01-01T00:00:00.000" =
      Except.ok ([{ id := "dup-id", filename := some "old.fits" }],
        [{ id := "dup-id", filename := some "new.fits",
           last_updated := some "2025-01-01T00:00:00.000" }]) := by
  exact ⟨rfl, rfl⟩

/-- Claim C2 (amended): a mutating `add` whose insert fails mid-transaction
is rolled back — the table is unchanged — but the exception is caught and
logged inside `LocalCalibrationDB.transaction` and not re-raised, so the
caller observes a normal return instead of an error. -/
theorem c2_rollback_but_swallowed (db cals : List CalRecord) (now : String)
    (p : List CalRecord × List CalRecord) (h : dbAdd db cals now = Except.ok p)
    (hfail : insertAllOk db p.2 = false) : p.1 = db := by
  rcases dbAdd_ok db cals now p h with ⟨_, hp⟩ | ⟨_, conv, _, _, hp1⟩
  · rw [hp] at hfail ⊢
  · rw [hp1, hfail]
    simp

/-- Claim C2 witness: the amended statement applied at the concrete
duplicate-id batch. -/
theorem c2_witness :
    ([({ id := "dup-id", filename := some "old.fits" } : CalRecord)],
      [({ id := "dup-id", filename := some "new.fits",
          last_updated := some "2025-01-01T00:00:00.000" } : CalRecord)]).1 =
      [{ id := "dup-id", filename := some "old.fits" }] := by
  exact c2_rollback_but_swallowed
    [{ id := "dup-id", filename := some "old.fits" }]
    [{ id := "dup-id", filename := some "new.fits" }]
    "2025-01-01T00:00:00.000" _ rfl rfl

/-- Claim C3: `add` does not upsert.  `insert_all` is called without
`upsert`/`replace`, so re-adding an existing id raises `IntegrityError`
inside the transaction, which rolls back and swallows it: the stored row
keeps its old contents (`cal_version` stays `"001"`, the update to `"002"`
is lost) and the caller sees a normal return, contradicting the documented
upsert-by-id semantics. -/
theorem c3_add_does_not_upsert :
    dbAdd [{ id := "rec-1", filename := some "dark.fits", cal_version := some "001",
             last_updated := some "2024-05-01T00:00:00.000" }]
        [{ id := "rec-1", filename := some "dark.fits", cal_version := some "002",
           last_updated := some "2024-05-02T00:00:00.000" }]
        "2025-01-01T00:00:00.000" =
      Except.ok ([{ id := "rec-1", filename := some "dark.fits",
                    cal_version := some "001",
                    last_updated := some "2024-05-01T00:00:00.000" }],
        [{ id := "rec-1", filename := some "dark.fits", cal_version := some "002",
           last_updated := some "2024-05-02T00:00:00.000" }]) ∧
    query_id [{ id := "rec-1", filename := some "dark.fits",
                cal_version := some "001",
                last_updated := some "2024-05-01T00:00:00.000" }] "rec-1" =
      some { id := "rec-1", filename := some "dark.fits", cal_version := some "001",
             last_updated := some "2024-05-01T00:00:00.000" } := by
  exact ⟨rfl, rfl⟩

/-- Claim C8 counterexample: a record that already carries a `last_updated`
value does not keep it verbatim — `add` first normalizes it through
`postgres_http_date_to_iso`, so a second-precision ISO value gains a
millisecond suffix. -/
theorem c8_counterexample_value_normalized :
    dbAdd [] [{ id := "c8", filename := some "f.fits",
                last_updated := some "2024-09-24T00:00:00" }]
        "2099-01-01T00:00:00.000" =
      Except.ok ([{ id := "c8", filename := some "f.fits",
                    last_updated := some "2024-09-24T00:00:00.000" }],
        [{ id := "c8", filename := some "f.fits",
           last_updated := some "2024-09-24T00:00:00.000" }]) ∧
    some "2024-09-24T00:00:00.000" ≠ some "2024-09-24T00:00:00" := by
  refine ⟨rfl, by decide⟩

/-- Claim C8 (amended): within one `add` batch, every record lacking
`last_updated` is stamped with the one shared batch timestamp `now`, while a
record already carrying a value has it replaced by its
`postgres_http_date_to_iso` normalization (which is the identity on values
already in millisecond-precision ISO form) rather than kept verbatim. -/
theorem c8_one_shared_batch_timestamp (db cals : List CalRecord) (now : String)
    (p : List CalRecord × List CalRecord) (h : dbAdd db cals now = Except.ok p) :
    p.2.length = cals.length ∧
    ∀ i (hi : i < cals.length) (hj : i < p.2.length),
      ((cals.get ⟨i, hi⟩).last_updated = none →
        (p.2.get ⟨i, hj⟩).last_updated = some now) ∧
      (∀ v w, (cals.get ⟨i, hi⟩).last_updated = some v →
        postgres_http_date_to_iso v = Except.ok w →
        (p.2.get ⟨i, hj⟩).last_updated = some w) := by
  obtain ⟨p1, p2⟩ := p
  rcases dbAdd_ok db cals now (p1, p2) h with ⟨hc, hp⟩ | ⟨_, conv, hm, hp2, _⟩
  · subst hc
    rw [hp]
    exact ⟨rfl, by intro i hi; simp at hi⟩
  · have hlen : conv.length = cals.length := mapExcept_ok_length _ _ _ hm
    simp only at hp2
    subst hp2
    have hlen2 : (conv.map (stampLastUpdated now)).length = cals.length := by
      simpa using hlen
    refine ⟨hlen2, ?_⟩
    intro i hi hj
    have hic : i < conv.length := by omega
    have hcv : convertDatetimeCols (cals.get ⟨i, hi⟩) = Except.ok (conv.get ⟨i, hic⟩) :=
      mapExcept_ok_get _ _ _ hm i hi hic
    have hpg : ((conv.map (stampLastUpdated now)).get ⟨i, hj⟩ : CalRecord) =
        stampLastUpdated now (conv.get ⟨i, hic⟩) := by
      simp
    constructor
    · intro hnone
      have hcu : (conv.get ⟨i, hic⟩).last_updated = none :=
        convert_last_updated_none _ _ hcv hnone
      rw [hpg]
      unfold stampLastUpdated
      rw [hcu]
    · intro v w hv hw
      rcases convert_last_updated_some _ _ hcv v hv with ⟨w2, hw2, hcu⟩
      rw [hw] at hw2
      cases hw2
      have hne : w ≠ "" := postgres_iso_ne_empty v w hw
      rw [hpg]
      unfold stampLastUpdated
      rw [hcu]
      simp only [hne, if_false]
      exact hcu

/-- Claim C8 witness: the amended statement applied to a two-record batch —
one record is stamped with the shared timestamp, the other keeps its
(already normalized) value. -/
theorem c8_witness :
    (([({ id := "w1", filename := some "a.fits" } : CalRecord),
       { id := "w2", filename := some "b.fits",
         last_updated := some "2024-09-24T00:00:00.000" }].map
        (stampLastUpdated "2025-02-02T00:00:00.000")).length = 2 ∧ True) ∨
    (([({ id := "w1", filename := some "a.fits",
          last_updated := some "2025-02-02T00:00:00.000" } : CalRecord),
       { id := "w2", filename := some "b.fits",
         last_updated := some "2024-09-24T00:00:00.000" }].get
        ⟨0, by decide⟩).last_updated = some "2025-02-02T00:00:00.000") := by
  right
  have h := c8_one_shared_batch_timestamp []
    [{ id := "w1", filename := some "a.fits" },
     { id := "w2", filename := some "b.fits",
       last_updated := some "2024-09-24T00:00:00.000" }]
    "2025-02-02T00:00:00.000"
    ([{ id := "w1", filename := some "a.fits",
        last_updated := some "2025-02-02T00:00:00.000" },
      { id := "w2", filename := some "b.fits",
        last_updated := some "2024-09-24T00:00:00.000" }],
     [{ id := "w1", filename := some "a.fits",
        last_updated := some "2025-02-02T00:00:00.000" },
      { id := "w2", filename := some "b.fits",
        last_updated := some "2024-09-24T00:00:00.000" }])
    rfl
  exact (h.2 0 (by decide) (by decide)).1 rfl

/-- Claim C9: when the record is found in the local table and its file is
already present at `<data_dir><filename>`, `get_calibration` returns
`(path, record)` with the table, the cache files and the remote side
untouched: zero remote queries and zero downloads, for any remote
configuration (even none). -/
theorem c9_cache_hit_no_remote_access (store : CalibrationStore) (files : List String)
    (remote : Option (List CalRecord)) (cal : CalArg) (now : String)
    (r : CalRecord) (fn : String)
    (hlook : calibration_record_in_cache store cal "id" = Except.ok (CacheVal.one r))
    (hfn : r.filename = some fn)
    (hfile : files.contains (store.data_dir ++ fn) = true) :
    get_calibration store files remote cal now =
      Except.ok ⟨some (store.data_dir ++ fn, r), store.local_db, files, 0, 0⟩ := by
  simp only [get_calibration, bind, Except.bind, hlook, hfn, hfile]
  rfl

/-- Claim C9 witness: the theorem applied at a one-record store whose file
is in the cache, with a connected remote that is provably never touched. -/
theorem c9_witness :
    get_calibration
        { origin := none, data_dir := "/cache/hispec/",
          local_db := [{ id := "rec-9", filename := some "dark9.fits",
                         last_updated := some "2024-03-01T00:00:00.000" }] }
        ["/cache/hispec/dark9.fits"]
        (some [{ id := "other", filename := some "x.fits" }])
        (CalArg.record { id := "rec-9", filename := some "dark9.fits",
                         last_updated := some "2024-03-01T00:00:00.000" })
        "2025-01-01T00:00:00.000" =
      Except.ok
        ⟨some ("/cache/hispec/dark9.fits",
           { id := "rec-9", filename := some "dark9.fits",
             last_updated := some "2024-03-01T00:00:00.000" }),
         [{ id := "rec-9", filename := some "dark9.fits",
            last_updated := some "2024-03-01T00:00:00.000" }],
         ["/cache/hispec/dark9.fits"], 0, 0⟩ := by
  exact c9_cache_hit_no_remote_access
    { origin := none, data_dir := "/cache/hispec/",
      local_db := [{ id := "rec-9", filename := some "dark9.fits",
                     last_updated := some "2024-03-01T00:00:00.000" }] }
    ["/cache/hispec/dark9.fits"]
    (some [{ id := "other", filename := some "x.fits" }])
    (CalArg.record { id := "rec-9", filename := some "dark9.fits",
                     last_updated := some "2024-03-01T00:00:00.000" })
    "2025-01-01T00:00:00.000"
    { id := "rec-9", filename := some "dark9.fits",
      last_updated := some "2024-03-01T00:00:00.000" }
    "dark9.fits" rfl rfl rfl

/-- Claim C1: on a local miss with a configured remote, a remote hit inserts
the fetched record into the local table (one remote query), but control then
falls off the end of `get_calibration` — the Python method returns `None`
instead of continuing through the retrieval path to `(path, record)`; on a
remote miss the call raises the "not found in Remote DB" error. -/
theorem c1_remote_hit_returns_none :
    get_calibration { origin := none, data_dir := "/cache/", local_db := [] } []
        (some [{ id := "123e4567-e89b-42d3-a456-426614174000",
                 filename := some "r.fits", cal_type := some "dark",
                 datetime_obs := some "2024-01-01T00:00:00.000",
                 last_updated := some "2024-01-01T00:00:00.000" }])
        (CalArg.strArg "123e4567-e89b-42d3-a456-426614174000")
        "2025-01-01T00:00:00.000" =
      Except.ok
        ⟨none,
         [{ id := "123e4567-e89b-42d3-a456-426614174000",
            filename := some "r.fits", cal_type := some "dark",
            datetime_obs := some "2024-01-01T00:00:00.000",
            last_updated := some "2024-01-01T00:00:00.000" }],
         [], 1, 0⟩ ∧
    get_calibration { origin := none, data_dir := "/cache/", local_db := [] } []
        (some []) (CalArg.strArg "123e4567-e89b-42d3-a456-426614174000")
        "2025-01-01T00:00:00.000" =
      Except.error
        "Calibration record not found in Remote DB for 123e4567-e89b-42d3-a456-426614174000" := by
  exact ⟨rfl, rfl⟩

/-- Claim C4: the §8 scenario — registering five same-family `dark`
calibrations with `origin="LOCAL"` — does not produce `cal_version`s
`"001".."005"`.  With the default `new_version=False` only the first record
is stored (the other four skip on the version-family check) and it carries
no `cal_version`; with `new_version=True` all five are stored but every
`cal_version` is still absent, because `register_calibration` discards the
value `generate_calibration_version` returns and never writes it onto the
record. -/
theorem c4_versions_never_assigned :
    (registerSequence { origin := none, data_dir := "/cache/", local_db := [] } []
        [{ id := "id1", filename := some "f1.fits", cal_type := some "dark",
           datetime_obs := some "2024-09-24T00:00:00.000" },
         { id := "id2", filename := some "f2.fits", cal_type := some "dark",
           datetime_obs := some "2024-09-24T00:00:00.000" },
         { id := "id3", filename := some "f3.fits", cal_type := some "dark",
           datetime_obs := some "2024-09-24T00:00:00.000" },
         { id := "id4", filename := some "f4.fits", cal_type := some "dark",
           datetime_obs := some "2024-09-24T00:00:00.000" },
         { id := "id5", filename := some "f5.fits", cal_type := some "dark",
           datetime_obs := some "2024-09-24T00:00:00.000" }]
        (some "LOCAL") false "2025-01-01T00:00:00.000" "md5x").map
      (fun t => (t.1.local_db.map (fun r => r.cal_version),
                 t.2.2.map (fun o => o.isSome))) =
      Except.ok ([none], [true, false, false, false, false]) ∧
    (registerSequence { origin := none, data_dir := "/cache/", local_db := [] } []
        [{ id := "id1", filename := some "f1.fits", cal_type := some "dark",
           datetime_obs := some "2024-09-24T00:00:00.000" },
         { id := "id2", filename := some "f2.fits", cal_type := some "dark",
           datetime_obs := some "2024-09-24T00:00:00.000" },
         { id := "id3", filename := some "f3.fits", cal_type := some "dark",
           datetime_obs := some "2024-09-24T00:00:00.000" },
         { id := "id4", filename := some "f4.fits", cal_type := some "dark",
           datetime_obs := some "2024-09-24T00:00:00.000" },
         { id := "id5", filename := some "f5.fits", cal_type := some "dark",
           datetime_obs := some "2024-09-24T00:00:00.000" }]
        (some "LOCAL") true "2025-01-01T00:00:00.000" "md5x").map
      (fun t => t.1.local_db.map (fun r => r.cal_version)) =
      Except.ok [none, none, none, none, none] := by
  exact ⟨rfl, rfl⟩

/-- Claim C5: in `last_updated` mode the executed filter is
`last_updated >= cursor`, not strictly greater: a local source record whose
`last_updated` exactly equals the target's cursor is returned as "missing"
(the remote cursor here is the maximum over the remote records). -/
theorem c5_boundary_record_included :
    remote_get_last_updated
        [{ id := "brem", filename := some "bf",
           last_updated := some "2024-01-02T00:00:00.000" }] =
      some "2024-01-02T00:00:00.000" ∧
    get_missing_records
        { origin := none, data_dir := "/c/",
          local_db := [{ id := "aloc", filename := some "af",
                         last_updated := some "2024-01-02T00:00:00.000" }] }
        (some [{ id := "brem", filename := some "bf",
                 last_updated := some "2024-01-02T00:00:00.000" }])
        "local" "last_updated" =
      Except.ok [{ id := "aloc", filename := some "af",
                   last_updated := some "2024-01-02T00:00:00.000" }] := by
  exact ⟨rfl, rfl⟩

/-! ### Lemmas: decimal rendering round-trips through `int(...)` -/

theorem digitChar_spec (d : Nat) (hd : d < 10) :
    (digitChar d).isDigit = true ∧ (digitChar d).toNat - 48 = d := by
  interval_cases d <;> exact ⟨rfl, rfl⟩

theorem decimalReprAux_val (fuel : Nat) :
    ∀ n acc, n ≤ fuel →
      digitsVal (decimalReprAux fuel n acc) = n * 10 ^ acc.length + digitsVal acc := by
  induction fuel with
  | zero =>
    intro n acc hn
    have : n = 0 := by omega
    subst this
    simp [decimalReprAux]
  | succ fuel ih =>
    intro n acc hn
    by_cases h0 : n = 0
    · subst h0
      simp [decimalReprAux]
    · have hlt : n / 10 < n := Nat.div_lt_self (Nat.pos_of_ne_zero h0) (by decide)
      have hstep : n / 10 ≤ fuel := by omega
      simp only [decimalReprAux, h0, if_false]
      rw [ih (n / 10) (digitChar (n % 10) :: acc) hstep]
      have hd : n % 10 < 10 := Nat.mod_lt n (by omega)
      have hdc := (digitChar_spec (n % 10) hd).2
      simp only [digitsVal, List.length_cons, hdc]
      have hmod := Nat.div_add_mod n 10
      have hpow : (10 : Nat) ^ (acc.length + 1) = 10 ^ acc.length * 10 := by
        rw [Nat.pow_succ]
      have hdm : n / 10 * 10 + n % 10 = n := by omega
      calc n / 10 * 10 ^ (acc.length + 1) +
            (n % 10 * 10 ^ acc.length + digitsVal acc)
          = (n / 10 * 10 + n % 10) * 10 ^ acc.length + digitsVal acc := by
            rw [hpow]; ring
        _ = n * 10 ^ acc.length + digitsVal acc := by rw [hdm]

theorem decimalReprAux_digits (fuel : Nat) :
    ∀ n acc, allDigits acc = true →
      allDigits (decimalReprAux fuel n acc) = true := by
  induction fuel with
  | zero =>
    intro n acc hacc
    simpa [decimalReprAux] using hacc
  | succ fuel ih =>
    intro n acc hacc
    by_cases h0 : n = 0
    · subst h0
      simpa [decimalReprAux] using hacc
    · simp only [decimalReprAux, h0, if_false]
      apply ih
      have hd : n % 10 < 10 := Nat.mod_lt n (by omega)
      have hdc := (digitChar_spec (n % 10) hd).1
      simp [allDigits, hdc]
      simpa [allDigits] using hacc

theorem decimalReprAux_length (fuel : Nat) :
    ∀ n acc, acc.length ≤ (decimalReprAux fuel n acc).length := by
  induction fuel with
  | zero =>
    intro n acc
    simp [decimalReprAux]
  | succ fuel ih =>
    intro n acc
    by_cases h0 : n = 0
    · simp [decimalReprAux, h0]
    · simp only [decimalReprAux, h0, if_false]
      have := ih (n / 10) (digitChar (n % 10) :: acc)
      simp only [List.length_cons] at this
      omega

theorem toList_mk (cs : List Char) : (String.mk cs).toList = cs := rfl

theorem decimalRepr_spec (n : Nat) :
    (decimalRepr n).toList ≠ [] ∧ allDigits (decimalRepr n).toList = true ∧
      digitsVal (decimalRepr n).toList = n := by
  by_cases h0 : n = 0
  · subst h0
    exact ⟨by decide, rfl, rfl⟩
  · have hlist : (decimalRepr n).toList = decimalReprAux n n [] := by
      simp [decimalRepr, h0, toList_mk]
    refine ⟨?_, ?_, ?_⟩
    · rw [hlist]
      have h1 : 1 ≤ (decimalReprAux n n []).length := by
        cases n with
        | zero => exact absurd rfl h0
        | succ m =>
          have hred : decimalReprAux (m + 1) (m + 1) [] =
              decimalReprAux m ((m + 1) / 10) [digitChar ((m + 1) % 10)] := by
            simp [decimalReprAux]
          rw [hred]
          have := decimalReprAux_length m ((m + 1) / 10) [digitChar ((m + 1) % 10)]
          simpa using this
      intro hnil
      rw [hnil] at h1
      simp at h1
    · rw [hlist]
      exact decimalReprAux_digits n n [] rfl
    · rw [hlist]
      have := decimalReprAux_val n n [] (Nat.le_refl n)
      simpa [digitsVal] using this

theorem digitsVal_zeros_prefix (k : Nat) (cs : List Char) :
    digitsVal (List.replicate k '0' ++ cs) = digitsVal cs := by
  induction k with
  | zero => simp
  | succ k ih =>
    have h0 : ('0'.toNat - 48) = 0 := rfl
    simp [digitsVal, List.replicate_succ, h0, ih]

theorem toList_append (a b : String) : (a ++ b).toList = a.toList ++ b.toList := rfl

theorem pyInt_padZeros (w n : Nat) : pyIntDigits ((padZeros w n).toList) = some n := by
  obtain ⟨hne, hdig, hval⟩ := decimalRepr_spec n
  have hlist : (padZeros w n).toList =
      List.replicate (w - (decimalRepr n).length) '0' ++ (decimalRepr n).toList := by
    simp [padZeros, toList_append, toList_mk]
  have hnil : (padZeros w n).toList ≠ [] := by
    rw [hlist]
    intro hcontra
    rcases List.append_eq_nil.mp hcontra with ⟨_, h2⟩
    exact hne h2
  have halldig : allDigits ((padZeros w n).toList) = true := by
    rw [hlist]
    simp only [allDigits, List.all_append, Bool.and_eq_true]
    constructor
    · apply List.all_eq_true.mpr
      intro c hc
      have := List.eq_of_mem_replicate hc
      subst this
      rfl
    · simpa [allDigits] using hdig
  have hv : digitsVal ((padZeros w n).toList) = n := by
    rw [hlist, digitsVal_zeros_prefix, hval]
  simp only [pyIntDigits]
  rw [if_pos]
  · rw [hv]
  · rw [Bool.and_eq_true]
    exact ⟨by simpa using hnil, halldig⟩

/-! ### Lemmas: the version allocator -/

/-- The `cal_version` strings of the records matching a calibration's exact
version-family key (`cal_type`, `datetime_obs` when present) plus origin. -/
def familyVersions (db : List CalRecord) (cal : CalRecord) (og : String) : List String :=
  (db.filter (fun r =>
    familyRowMatch (cal.cal_type, cal.datetime_obs) r && r.origin == some og)).filterMap
    (fun r => r.cal_version)

/-- The maximum integer value among the set `cal_version`s of the family
(`0` when there are none): the quantity the spec's §4.4 allocates from. -/
def familyMaxVersion (db : List CalRecord) (cal : CalRecord) (og : String) : Nat :=
  ((familyVersions db cal og).filterMap (fun s => pyIntDigits s.toList)).foldl max 0

theorem mapExcept_pyInt (l : List String)
    (h : ∀ s ∈ l, (pyIntDigits s.toList).isSome = true) :
    mapExcept (fun s =>
      match pyIntDigits s.toList with
      | some n => Except.ok n
      | none => Except.error ("invalid literal for int with base 10: " ++ s)) l =
    Except.ok (l.filterMap (fun s => pyIntDigits s.toList)) := by
  induction l with
  | nil => rfl
  | cons s l ih =>
    have hs := h s (List.mem_cons_self s l)
    obtain ⟨n, hn⟩ := Option.isSome_iff_exists.mp hs
    have hrest := ih (fun x hx => h x (List.mem_cons_of_mem s hx))
    simp only [mapExcept, bind, Except.bind, hn, hrest, List.filterMap_cons, pure,
      Except.pure]

theorem pyOrStr_some_of_ne (s : String) (b : Option String) (h : s ≠ "") :
    pyOrStr (some s) b = some s := by
  simp [pyOrStr, h]

theorem getVersionFamilyValues_ok (cal : CalRecord) (ct : String)
    (hct : cal.cal_type = some ct) (hne : ct ≠ "") :
    getVersionFamilyValues cal = Except.ok (some ct, cal.datetime_obs) := by
  simp [getVersionFamilyValues, hct, hne]

/-- `_get_next_calibration_version` on a non-empty table with a resolvable
origin and parseable family versions: `max + 1`, zero-padded to 3 digits. -/
theorem get_next_version_formula (db : List CalRecord) (defO : Option String)
    (cal2 : CalRecord) (og : String) (hne : db ≠ []) (hog : cal2.origin = some og)
    (hogne : og ≠ "") (ct : String) (hct : cal2.cal_type = some ct) (hctne : ct ≠ "")
    (hpv : ∀ s ∈ familyVersions db cal2 og, (pyIntDigits s.toList).isSome = true) :
    get_next_calibration_version defO db cal2 none =
      Except.ok (padZeros 3 (familyMaxVersion db cal2 og + 1)) := by
  have hlen : ¬ dbLen db = 0 := by
    simpa [dbLen, List.length_eq_zero] using hne
  have horesolve : pyOrStr (pyOrStr none cal2.origin) defO = some og := by
    rw [hog]
    show pyOrStr (pyOrStr none (some og)) defO = some og
    have h1 : pyOrStr none (some og) = some og := rfl
    rw [h1]
    exact pyOrStr_some_of_ne og defO hogne
  have hfam := getVersionFamilyValues_ok cal2 ct hct hctne
  have hpv2 : ∀ s ∈ (db.filter (fun r =>
      familyRowMatch (some ct, cal2.datetime_obs) r && r.origin == some og)).filterMap
      (fun r => r.cal_version), (pyIntDigits s.toList).isSome = true := by
    intro s hs
    apply hpv
    simpa [familyVersions, hct] using hs
  have hmap := mapExcept_pyInt _ hpv2
  simp only [get_next_calibration_version, hlen, if_false, horesolve, hfam, hmap,
    bind, Except.bind, pure, Except.pure]
  simp only [familyMaxVersion, familyVersions, hct]

/-- Claim C7: `generate_calibration_version` (with an explicit non-empty
origin argument) returns `max + 1` over the integer values of the set
`cal_version`s of the records matching the version-family key plus origin,
zero-padded to three digits; an empty store yields `"001"`; a computed
version above `999` raises instead of being returned.  The record is
returned with its `origin` stamped (the source's in-place update). -/
theorem c7_version_allocation (store : CalibrationStore) (cal : CalRecord) (o : String)
    (hou : pyUpper o ≠ "")
    (hct : store.local_db ≠ [] → ∃ ct, cal.cal_type = some ct ∧ ct ≠ "")
    (hpv : ∀ s ∈ familyVersions store.local_db cal (pyUpper o),
      (pyIntDigits s.toList).isSome = true) :
    (store.local_db = [] →
      generate_calibration_version store cal (some o) =
        Except.ok ("001", { cal with origin := some (pyUpper o) })) ∧
    (familyMaxVersion store.local_db cal (pyUpper o) + 1 ≤ 999 →
      generate_calibration_version store cal (some o) =
        Except.ok
          (padZeros 3 (familyMaxVersion store.local_db cal (pyUpper o) + 1),
           { cal with origin := some (pyUpper o) })) ∧
    (999 < familyMaxVersion store.local_db cal (pyUpper o) + 1 →
      ∃ e, generate_calibration_version store cal (some o) = Except.error e) := by
  have hnext : store.local_db = [] →
      get_next_calibration_version store.origin store.local_db
        { cal with origin := some (pyUpper o) } none = Except.ok "001" := by
    intro hdb
    simp [get_next_calibration_version, hdb, dbLen]
    rfl
  have hnext2 : store.local_db ≠ [] →
      get_next_calibration_version store.origin store.local_db
        { cal with origin := some (pyUpper o) } none =
        Except.ok (padZeros 3 (familyMaxVersion store.local_db cal (pyUpper o) + 1)) := by
    intro hdb
    obtain ⟨ct, hct1, hct2⟩ := hct hdb
    exact get_next_version_formula store.local_db store.origin _ (pyUpper o) hdb rfl hou
      ct hct1 hct2 hpv
  have hmempty : store.local_db = [] →
      familyMaxVersion store.local_db cal (pyUpper o) = 0 := by
    intro hdb
    simp [familyMaxVersion, familyVersions, hdb]
  refine ⟨?_, ?_, ?_⟩
  · intro hdb
    simp only [generate_calibration_version, bind, Except.bind, hnext hdb]
    rfl
  · intro hle
    by_cases hdb : store.local_db = []
    · have h0 := hmempty hdb
      rw [h0]
      have : padZeros 3 (0 + 1) = "001" := rfl
      rw [this]
      simp only [generate_calibration_version, bind, Except.bind, hnext hdb]
      rfl
    · simp only [generate_calibration_version, bind, Except.bind, hnext2 hdb]
      rw [pyInt_padZeros]
      have hgt : ¬ (familyMaxVersion store.local_db cal (pyUpper o) + 1 > 999) := by
        omega
      simp [hgt, pure, Except.pure]
  · intro hgt
    have hdb : store.local_db ≠ [] := by
      intro hdb
      have := hmempty hdb
      omega
    simp only [generate_calibration_version, bind, Except.bind, hnext2 hdb]
    rw [pyInt_padZeros]
    simp only [hgt, if_pos]
    exact ⟨_, rfl⟩

/-- Claim C7 witness: allocating against a store holding family versions
`"001"` and `"002"` (plus a record from another family) yields `"003"`, and
an empty store yields `"001"`. -/
theorem c7_witness :
    generate_calibration_version
        { origin := none, data_dir := "/c/",
          local_db :=
            [{ id := "v1", cal_type := some "dark",
               datetime_obs := some "2024-09-24T00:00:00.000",
               cal_version := some "001", origin := some "LOCAL" },
             { id := "v2", cal_type := some "dark",
               datetime_obs := some "2024-09-24T00:00:00.000",
               cal_version := some "002", origin := some "LOCAL" },
             { id := "v3", cal_type := some "flat",
               datetime_obs := some "2024-09-24T00:00:00.000",
               cal_version := some "009", origin := some "LOCAL" }] }
        { id := "new", cal_type := some "dark",
          datetime_obs := some "2024-09-24T00:00:00.000" }
        (some "local") =
      Except.ok ("003",
        { id := "new", cal_type := some "dark",
          datetime_obs := some "2024-09-24T00:00:00.000",
          origin := some "LOCAL" }) ∧
    generate_calibration_version { origin := none, data_dir := "/c/", local_db := [] }
        { id := "new", cal_type := some "dark",
          datetime_obs := some "2024-09-24T00:00:00.000" }
        (some "local") =
      Except.ok ("001",
        { id := "new", cal_type := some "dark",
          datetime_obs := some "2024-09-24T00:00:00.000",
          origin := some "LOCAL" }) := by
  constructor
  · have h := (c7_version_allocation
      { origin := none, data_dir := "/c/",
        local_db :=
          [{ id := "v1", cal_type := some "dark",
             datetime_obs := some "2024-09-24T00:00:00.000",
             cal_version := some "001", origin := some "LOCAL" },
           { id := "v2", cal_type := some "dark",
             datetime_obs := some "2024-09-24T00:00:00.000",
             cal_version := some "002", origin := some "LOCAL" },
           { id := "v3", cal_type := some "flat",
             datetime_obs := some "2024-09-24T00:00:00.000",
             cal_version := some "009", origin := some "LOCAL" }] }
      { id := "new", cal_type := some "dark",
        datetime_obs := some "2024-09-24T00:00:00.000" }
      "local" (by decide) (fun _ => ⟨"dark", rfl, by decide⟩)
      (by decide)).2.1 (by decide)
    exact h
  · exact (c7_version_allocation
      { origin := none, data_dir := "/c/", local_db := [] }
      { id := "new", cal_type := some "dark",
        datetime_obs := some "2024-09-24T00:00:00.000" }
      "local" (by decide) (fun hdb => absurd rfl hdb)
      (by decide)).1 rfl

end KOAMW
